import Mathlib

/-!
Verification of the NOR Flash Circular Buffer (FCB) implementation.

The development shallowly embeds the C sources:
  src/flash_mem/flash_mem.c  (flash device simulation)
  src/unnamed/part_001       (crc32_gen)
  src/fcb/fcb.c              (FCB engine, first file version)

Flash storage is modelled as a total function from byte addresses to byte
values; multi-byte structures are serialized little-endian, matching the
typical target the sources assume.  Machine integers are modelled as Nat
with explicit reduction modulo 2^32 / 2^16 / 2^8 where the C code relies
on fixed-width wrapping.
-/

set_option maxHeartbeats 2000000
set_option maxRecDepth 10000

/-! ## Flash device constants (flash_mem.h) -/

def FLASH_SECTOR_SIZE : Nat := 64 * 1024
def FLASH_SECTOR_COUNT : Nat := 64
def FLASH_SIZE : Nat := FLASH_SECTOR_SIZE * FLASH_SECTOR_COUNT

/-- The flash storage: byte value at each absolute address. -/
def Flash : Type := Nat → Nat

/-- Fully erased flash (every byte 0xFF); the state produced by flash_full_erase. -/
def flashAllFF : Flash := fun _ => 0xFF

/-- Byte read: stored values are reduced to a byte. -/
def readByte (m : Flash) (a : Nat) : Nat := m a % 256

/-- Little-endian 16-bit read, as the C code reads a uint16_t field from media. -/
def readLe16 (m : Flash) (a : Nat) : Nat :=
  readByte m a + 256 * readByte m (a + 1)

/-- Little-endian 32-bit read, as the C code reads a uint32_t field from media. -/
def readLe32 (m : Flash) (a : Nat) : Nat :=
  readByte m a + 256 * readByte m (a + 1) + 65536 * readByte m (a + 2) +
    16777216 * readByte m (a + 3)

/-- Read a list of len bytes starting at addr. -/
def readBytes (m : Flash) (addr len : Nat) : List Nat :=
  (List.range len).map (fun i => readByte m (addr + i))

/-- Little-endian byte serialization of a uint16_t value. -/
def le16 (x : Nat) : List Nat := [x % 256, x / 256 % 256]

/-- Little-endian byte serialization of a uint32_t value. -/
def le32 (x : Nat) : List Nat :=
  [x % 256, x / 256 % 256, x / 65536 % 256, x / 16777216 % 256]

/-- memcpy into flash: bytes of ds are stored at consecutive addresses from addr. -/
def writeBytes (m : Flash) (addr : Nat) (ds : List Nat) : Flash :=
  fun a => if addr ≤ a ∧ a < addr + ds.length then ds.getD (a - addr) 0 % 256 else m a

/-! ## Flash device primitives (flash_mem.c)

The addr argument is a uint32_t; len is a uint16_t.  The C bounds check
computes addr + len in 32-bit arithmetic, hence the explicit mod 2^32. -/

/-- flash_write: bounds-checked memcpy into the device array (stated
pointwise; the bounds check does not depend on the probed address). -/
def flash_write (m : Flash) (addr : Nat) (data : List Nat) : Flash :=
  fun a =>
    if (addr + data.length) % 2 ^ 32 > FLASH_SIZE then m a else writeBytes m addr data a

/-- flash_read: bounds-checked memcpy out of the device array; on a bounds
violation the destination buffer keeps its previous contents. -/
def flash_read (m : Flash) (addr len : Nat) (buf : List Nat) : List Nat :=
  if (addr + len) % 2 ^ 32 > FLASH_SIZE then buf else readBytes m addr len

/-- flash_erase_sector: sets the sector containing addr entirely to 0xFF
(stated pointwise; the bounds check does not depend on the probed address). -/
def flash_erase_sector (m : Flash) (addr : Nat) : Flash :=
  let base := addr - addr % FLASH_SECTOR_SIZE
  fun a =>
    if base + FLASH_SECTOR_SIZE > FLASH_SIZE then m a
    else if base ≤ a ∧ a < base + FLASH_SECTOR_SIZE then 0xFF else m a

/-! ## CRC32 codec (src/unnamed/part_001) -/

/-- One bit round of the table generator: shift right, conditionally xor the
reversed polynomial 0xEDB88320. -/
def crc32_round (c : Nat) : Nat :=
  if c % 2 = 1 then Nat.xor (c / 2) 0xEDB88320 else c / 2

/-- crc32_table[i]: eight bit rounds applied to the index. -/
def crc32_table_entry (i : Nat) : Nat :=
  crc32_round (crc32_round (crc32_round (crc32_round
    (crc32_round (crc32_round (crc32_round (crc32_round i)))))))

/-- One byte step of the CRC computation: crc = (crc >> 8) ^ table[(crc ^ b) & 0xFF]. -/
def crc32_update (crc b : Nat) : Nat :=
  Nat.xor (crc / 256) (crc32_table_entry (Nat.xor crc b % 256))

/-- crc32_gen: seed 0xFFFFFFFF, byte steps, final xor 0xFFFFFFFF. -/
def crc32_gen (data : List Nat) : Nat :=
  Nat.xor (data.foldl crc32_update 0xFFFFFFFF) 0xFFFFFFFF

/-! ## FCB data model (fcb.h / fcb.c) -/

/-- FCB logistics structure (fcb.h, second header version with addresses). -/
structure Fcb where
  first_sector : Nat
  last_sector : Nat
  sector_size : Nat
  current_sector_id : Nat
  write_addr : Nat
  read_addr : Nat
  delete_addr : Nat
deriving DecidableEq

/-- Sector header structure (16 bytes at offset 0 of each sector). -/
structure SectorHeader where
  magic : Nat
  sequence_id : Nat
  header_crc : Nat
  state : Nat
deriving DecidableEq

/-- Record header structure (12 bytes preceding each payload). -/
structure ItemKey where
  magic : Nat
  len : Nat
  crc : Nat
  status : Nat
deriving DecidableEq

def SECTOR_MAGIC : Nat := 0xCAFEBABE
def STATE_FRESH : Nat := 0xFFFFFFFF
def STATE_ALLOCATED : Nat := 0x7FFFFFFF
def STATE_CONSUMED : Nat := 0x0FFFFFFF
def STATE_INVALID : Nat := 0x00000000

def FCB_ENTRY_MAGIC : Nat := 0xA55A
def FCB_STATUS_ERASED : Nat := 0xFFFFFFFF
def FCB_STATUS_VALID : Nat := 0x0000FFFF
def FCB_STATUS_POPPED : Nat := 0x00000000

/-- SEQ_IS_NEWER(a, b): the signed 32-bit difference (a - b) is positive. -/
def SEQ_IS_NEWER (a b : Nat) : Bool :=
  let d := (a % 2 ^ 32 + 2 ^ 32 - b % 2 ^ 32) % 2 ^ 32
  decide (0 < d ∧ d < 2 ^ 31)

/-- SEQ_IS_OLDER(a, b): the signed 32-bit difference (a - b) is negative. -/
def SEQ_IS_OLDER (a b : Nat) : Bool :=
  let d := (a % 2 ^ 32 + 2 ^ 32 - b % 2 ^ 32) % 2 ^ 32
  decide (2 ^ 31 ≤ d)

/-- Ring successor of a sector index, exactly as computed inline by the C code:
one step forward, wrapping from past last_sector to first_sector. -/
def ringNext (first last i : Nat) : Nat :=
  if i + 1 > last then first else i + 1

/-! ## FCB engine (fcb.c, first version) -/

/-- Serialization of a SectorHeader, as its in-memory byte image. -/
def sectorHeaderBytes (h : SectorHeader) : List Nat :=
  le32 h.magic ++ le32 h.sequence_id ++ le32 h.header_crc ++ le32 h.state

/-- fcb_write_sector_header: program 16 header bytes at the sector start
(no-op when the sector index is out of device range). -/
def fcb_write_sector_header (m : Flash) (sector_num : Nat) (h : SectorHeader) : Flash :=
  if sector_num ≥ FLASH_SECTOR_COUNT then m
  else flash_write m (sector_num * FLASH_SECTOR_SIZE) (sectorHeaderBytes h)

/-- fcb_read_sector_header: read the 16 header bytes at the sector start. -/
def fcb_read_sector_header (m : Flash) (sector_num : Nat) : SectorHeader :=
  { magic := readLe32 m (sector_num * FLASH_SECTOR_SIZE)
  , sequence_id := readLe32 m (sector_num * FLASH_SECTOR_SIZE + 4)
  , header_crc := readLe32 m (sector_num * FLASH_SECTOR_SIZE + 8)
  , state := readLe32 m (sector_num * FLASH_SECTOR_SIZE + 12) }

/-- fcb_get_sector_status: returns the header state if the magic and the
header CRC (over the first 8 bytes) validate, STATE_INVALID otherwise. -/
def fcb_get_sector_status (m : Flash) (sector_num : Nat) : Nat :=
  if sector_num ≥ FLASH_SECTOR_COUNT then STATE_INVALID
  else
    let h := fcb_read_sector_header m sector_num
    if h.magic ≠ SECTOR_MAGIC then STATE_INVALID
    else if crc32_gen (readBytes m (sector_num * FLASH_SECTOR_SIZE) 8) ≠ h.header_crc then
      STATE_INVALID
    else h.state

/-- fcb_append_sector: increments current_sector_id (32-bit wrapping) and
programs a fresh ALLOCATED header whose CRC covers magic and sequence_id. -/
def fcb_append_sector (fcb : Fcb) (sector_num : Nat) (m : Flash) : Fcb × Flash :=
  if sector_num ≥ FLASH_SECTOR_COUNT then (fcb, m)
  else
    let newId := (fcb.current_sector_id + 1) % 2 ^ 32
    let crc := crc32_gen (le32 SECTOR_MAGIC ++ le32 newId)
    let h : SectorHeader :=
      { magic := SECTOR_MAGIC, sequence_id := newId, header_crc := crc
      , state := STATE_ALLOCATED }
    ({ fcb with current_sector_id := newId }, fcb_write_sector_header m sector_num h)

/-- fcb_read_item_at: parse an ItemKey at an absolute address; fails when the
record magic is not 0xA55A or the status still reads ERASED. -/
def fcb_read_item_at (m : Flash) (addr : Nat) : Option ItemKey :=
  let k : ItemKey :=
    { magic := readLe16 m addr, len := readLe16 m (addr + 2)
    , crc := readLe32 m (addr + 4), status := readLe32 m (addr + 8) }
  if k.magic ≠ FCB_ENTRY_MAGIC then none
  else if k.status = FCB_STATUS_ERASED then none
  else some k

/-- fcb_sector_is_empty: header-invalid or fresh sectors are empty, otherwise
the sector is empty iff the first item slot still reads magic 0xFFFF. -/
def fcb_sector_is_empty (m : Flash) (sector_num : Nat) : Bool :=
  let st := fcb_get_sector_status m sector_num
  if st = STATE_INVALID ∨ st = STATE_FRESH then true
  else decide (readLe16 m (sector_num * FLASH_SECTOR_SIZE + 16) = 0xFFFF)

/-- Loop body of fcb_find_head_tail: walks sector indices carrying the current
head and tail candidates, their sequence ids, and the remaining count. -/
def fhtGo (m : Flash) (i : Nat) (count : Nat) (head tail : Option Nat)
    (hi lo : Nat) : Option Nat × Option Nat × Nat :=
  match count with
  | 0 => (head, tail, hi)
  | c + 1 =>
    let st := fcb_get_sector_status m i
    if st = STATE_INVALID ∨ st = STATE_FRESH then
      fhtGo m (i + 1) c head tail hi lo
    else
      let seq := (fcb_read_sector_header m i).sequence_id
      let hp := if head = none ∨ SEQ_IS_NEWER seq hi then (some i, seq) else (head, hi)
      let tp := if tail = none ∨ SEQ_IS_OLDER seq lo then (some i, seq) else (tail, lo)
      fhtGo m (i + 1) c hp.1 tp.1 hp.2 tp.2

/-- fcb_find_head_tail: scan [first_sector, last_sector], electing the newest
live sector (head), the oldest (tail), and the highest sequence id.
A head or tail of none models the C output value -1. -/
def fcb_find_head_tail (m : Flash) (fcb : Fcb) : Option Nat × Option Nat × Nat :=
  fhtGo m fcb.first_sector (fcb.last_sector + 1 - fcb.first_sector) none none 0 0xFFFFFFFF

/-- Free-slot margin test of fcb_find_sector_head_offset: the five 32-bit
words following the word at offset must all read 0xFFFFFFFF. -/
def marginOk (m : Flash) (base offset : Nat) : Bool :=
  decide (readLe32 m (base + offset + 4) = 0xFFFFFFFF ∧
    readLe32 m (base + offset + 8) = 0xFFFFFFFF ∧
    readLe32 m (base + offset + 12) = 0xFFFFFFFF ∧
    readLe32 m (base + offset + 16) = 0xFFFFFFFF ∧
    readLe32 m (base + offset + 20) = 0xFFFFFFFF)

/-- Loop of fcb_find_sector_head_offset, with explicit fuel (each iteration
advances the offset by at least one byte, so FLASH_SECTOR_SIZE fuel always
suffices for the whole loop range). -/
def fshoGo (m : Flash) (base : Nat) : Nat → Nat → Nat
  | 0, _ => 0xFFFFFFFF
  | fuel + 1, offset =>
    if offset + 2 * 12 ≤ FLASH_SECTOR_SIZE then
      if readLe32 m (base + offset) = 0xFFFFFFFF then
        if marginOk m base offset then offset
        else fshoGo m base fuel (offset + 1)
      else
        match fcb_read_item_at m (base + offset) with
        | some key => fshoGo m base fuel (offset + 12 + key.len)
        | none => fshoGo m base fuel (offset + 1)
    else 0xFFFFFFFF

/-- fcb_find_sector_head_offset: first write position in a sector, walking
from offset 16; 0xFFFFFFFF when the sector is full. -/
def fcb_find_sector_head_offset (m : Flash) (sector_num : Nat) : Nat :=
  fshoGo m (sector_num * FLASH_SECTOR_SIZE) FLASH_SECTOR_SIZE 16

/-- Loop of fcb_find_sector_tail_offset, with explicit fuel: return the
current offset when an item parses there, give up at the first offset whose
word reads 0xFFFFFFFF, otherwise advance one byte. -/
def ftoGo (m : Flash) (base : Nat) : Nat → Nat → Nat
  | 0, _ => 0xFFFFFFFF
  | fuel + 1, offset =>
    if offset + 12 ≤ FLASH_SECTOR_SIZE then
      match fcb_read_item_at m (base + offset) with
      | some _ => offset
      | none =>
        if readLe32 m (base + offset) = 0xFFFFFFFF then 0xFFFFFFFF
        else ftoGo m base fuel (offset + 1)
    else 0xFFFFFFFF

/-- fcb_find_sector_tail_offset: offset of the first parsed item of a sector,
or 0xFFFFFFFF when none is found before free space or the sector end. -/
def fcb_find_sector_tail_offset (m : Flash) (sector_num : Nat) : Nat :=
  ftoGo m (sector_num * FLASH_SECTOR_SIZE) FLASH_SECTOR_SIZE 16

/-- Loop of fcb_recover_global_tail: visit sectors in ring order from the
tail sector; stop at the first sector whose tail offset is found, or after
the head sector, or after sector_count sectors. -/
def rgtGo (m : Flash) (first last headS : Nat) : Nat → Nat → Nat → Nat
  | _, 0, head_addr => head_addr
  | i, count + 1, head_addr =>
    let off := fcb_find_sector_tail_offset m i
    if off ≠ 0xFFFFFFFF then i * FLASH_SECTOR_SIZE + off
    else if i = headS then head_addr
    else rgtGo m first last headS (ringNext first last i) count head_addr

/-- fcb_recover_global_tail: absolute address of the oldest parseable item,
falling back to head_addr when none is found. -/
def fcb_recover_global_tail (m : Flash) (fcb : Fcb) (head_addr : Nat) : Nat :=
  let headS := head_addr / FLASH_SECTOR_SIZE
  match (fcb_find_head_tail m fcb).2.1 with
  | none => head_addr
  | some tailS =>
    rgtGo m fcb.first_sector fcb.last_sector headS tailS
      (fcb.last_sector - fcb.first_sector + 1) head_addr

/-- fcb_mount: recover current_sector_id, write_addr, read_addr and
delete_addr from the media; may erase-and-allocate the ring successor of the
head sector when the head sector is full. -/
def fcb_mount (fcb_arg : Option Fcb) (m : Flash) : Int × Option Fcb × Flash :=
  match fcb_arg with
  | none => (-1, none, m)
  | some fcb =>
    match fcb_find_head_tail m fcb with
    | (none, _, _) =>
      let wa := fcb.first_sector * FLASH_SECTOR_SIZE + 16
      (0, some { fcb with current_sector_id := 0, write_addr := wa
                        , read_addr := wa, delete_addr := wa }, m)
    | (some head, _, hi) =>
      let fcb1 := { fcb with current_sector_id := hi }
      let hoff := fcb_find_sector_head_offset m head
      let st :=
        if hoff = 0xFFFFFFFF then
          let next := ringNext fcb.first_sector fcb.last_sector head
          let m1 := flash_erase_sector m (next * FLASH_SECTOR_SIZE)
          let am := fcb_append_sector fcb1 next m1
          ({ am.1 with write_addr := next * FLASH_SECTOR_SIZE + 16 }, am.2)
        else
          ({ fcb1 with write_addr := head * FLASH_SECTOR_SIZE + hoff }, m)
      let ra := fcb_recover_global_tail st.2 st.1 st.1.write_addr
      (0, some { st.1 with read_addr := ra, delete_addr := ra }, st.2)

/-- Loop of fcb_erase: erase count sectors starting at index i, in
increasing index order exactly as the C for loop does. -/
def eraseSectors (m : Flash) (i c : Nat) : Flash :=
  (List.range' i c).foldl (fun acc s => flash_erase_sector acc (s * FLASH_SECTOR_SIZE)) m

theorem eraseSectors_zero (m : Flash) (i : Nat) : eraseSectors m i 0 = m := rfl

theorem eraseSectors_succ (m : Flash) (i c : Nat) :
    eraseSectors m i (c + 1) =
      eraseSectors (flash_erase_sector m (i * FLASH_SECTOR_SIZE)) (i + 1) c := by
  unfold eraseSectors
  rw [List.range'_succ, List.foldl_cons]

/-- fcb_erase: erase every sector in [first_sector, last_sector], reset
current_sector_id and point all three addresses at first_sector offset 16. -/
def fcb_erase (fcb_arg : Option Fcb) (m : Flash) : Int × Option Fcb × Flash :=
  match fcb_arg with
  | none => (-1, none, m)
  | some fcb =>
    let m1 := eraseSectors m fcb.first_sector (fcb.last_sector + 1 - fcb.first_sector)
    let wa := fcb.first_sector * FLASH_SECTOR_SIZE + 16
    (0, some { fcb with current_sector_id := 0, write_addr := wa
                      , read_addr := wa, delete_addr := wa }, m1)

/-- Serialization of an ItemKey, as its in-memory byte image. -/
def itemKeyBytes (k : ItemKey) : List Nat :=
  le16 k.magic ++ le16 k.len ++ le32 k.crc ++ le32 k.status

/-- fcb_append: write one record at write_addr, rotating to the ring
successor sector first when the record does not fit in the current sector;
-1 on null or empty input, -2 when the rotation target holds the tail. -/
def fcb_append (fcb_arg : Option Fcb) (data_arg : Option (List Nat)) (m : Flash) :
    Int × Option Fcb × Flash :=
  match fcb_arg, data_arg with
  | none, _ => (-1, fcb_arg, m)
  | some _, none => (-1, fcb_arg, m)
  | some fcb, some data =>
    if data.length = 0 then (-1, some fcb, m)
    else
      let len := data.length
      let item_size := 12 + len
      let current_sector_num := fcb.write_addr / FLASH_SECTOR_SIZE
      let offset_in_sector := fcb.write_addr % FLASH_SECTOR_SIZE
      let st :=
        if offset_in_sector + item_size > FLASH_SECTOR_SIZE then
          let next := ringNext fcb.first_sector fcb.last_sector current_sector_num
          let tail_sector := fcb.read_addr / FLASH_SECTOR_SIZE
          if next = tail_sector then none
          else
            let m1 := flash_erase_sector m (next * FLASH_SECTOR_SIZE)
            let am := fcb_append_sector fcb next m1
            some ({ am.1 with write_addr := next * FLASH_SECTOR_SIZE + 16 }, am.2)
        else some (fcb, m)
      match st with
      | none => (-2, some fcb, m)
      | some (fcb1, m1) =>
        let key : ItemKey :=
          { magic := FCB_ENTRY_MAGIC, len := len, crc := crc32_gen data
          , status := FCB_STATUS_VALID }
        let m2 := flash_write m1 fcb1.write_addr (itemKeyBytes key)
        let m3 := flash_write m2 (fcb1.write_addr + 12) data
        (0, some { fcb1 with write_addr := fcb1.write_addr + item_size }, m3)

/-! ## Generic evaluation lemmas -/

theorem sectorSize_eq : FLASH_SECTOR_SIZE = 65536 := rfl

theorem sectorCount_eq : FLASH_SECTOR_COUNT = 64 := rfl

theorem flashSize_eq : FLASH_SIZE = 4194304 := rfl

theorem writeBytes_apply (m : Flash) (addr : Nat) (ds : List Nat) (a : Nat) :
    writeBytes m addr ds a =
      if addr ≤ a ∧ a < addr + ds.length then ds.getD (a - addr) 0 % 256 else m a := rfl

theorem flash_write_in_range (m : Flash) (addr : Nat) (ds : List Nat)
    (h : addr + ds.length ≤ FLASH_SIZE) : flash_write m addr ds = writeBytes m addr ds := by
  funext a
  unfold flash_write
  rw [if_neg]
  rw [Nat.mod_eq_of_lt (by rw [flashSize_eq] at h; omega)]
  omega

theorem flash_erase_sector_apply (m : Flash) (s : Nat) (a : Nat) (hs : s < FLASH_SECTOR_COUNT) :
    flash_erase_sector m (s * FLASH_SECTOR_SIZE) a =
      if s * FLASH_SECTOR_SIZE ≤ a ∧ a < s * FLASH_SECTOR_SIZE + FLASH_SECTOR_SIZE then 0xFF
      else m a := by
  have hle : s * FLASH_SECTOR_SIZE + FLASH_SECTOR_SIZE ≤ FLASH_SIZE := by
    rw [sectorSize_eq, flashSize_eq]
    rw [sectorCount_eq] at hs
    omega
  unfold flash_erase_sector
  simp only [Nat.mul_mod_left, Nat.sub_zero]
  rw [if_neg (by omega)]

theorem flash_erase_sector_oob (m : Flash) (s : Nat) (hs : FLASH_SECTOR_COUNT ≤ s) :
    flash_erase_sector m (s * FLASH_SECTOR_SIZE) = m := by
  funext a
  unfold flash_erase_sector
  simp only [Nat.mul_mod_left, Nat.sub_zero]
  rw [if_pos]
  rw [sectorSize_eq, flashSize_eq]
  rw [sectorCount_eq] at hs
  omega

theorem getD_eq_getElem (l : List Nat) (i : Nat) (h : i < l.length) : l.getD i 0 = l[i] := by
  simp [List.getD_eq_getElem?_getD, List.getElem?_eq_getElem h]

theorem getD_replicate (n i x d : Nat) (h : i < n) : (List.replicate n x).getD i d = x := by
  simp [List.getD_eq_getElem?_getD,
    List.getElem?_eq_getElem (by simpa using h : i < (List.replicate n x).length)]

theorem le32_lt (x : Nat) : ∀ b ∈ le32 x, b < 256 := by
  unfold le32
  intro b hb
  simp at hb
  rcases hb with h | h | h | h <;> omega

theorem readLe32_ff_iff (m : Flash) (a : Nat) :
    readLe32 m a = 0xFFFFFFFF ↔ (readByte m a = 0xFF ∧ readByte m (a + 1) = 0xFF ∧
      readByte m (a + 2) = 0xFF ∧ readByte m (a + 3) = 0xFF) := by
  unfold readLe32 readByte
  omega

theorem readBytes_writeBytes (m : Flash) (addr : Nat) (ds : List Nat)
    (hb : ∀ b ∈ ds, b < 256) : readBytes (writeBytes m addr ds) addr ds.length = ds := by
  apply List.ext_getElem
  · simp [readBytes]
  · intro i h1 h2
    simp only [readBytes, List.getElem_map, List.getElem_range]
    simp only [readBytes, List.length_map, List.length_range] at h1
    unfold readByte
    rw [writeBytes_apply, if_pos (by omega)]
    have hi : addr + i - addr = i := by omega
    rw [hi, getD_eq_getElem ds i h1, Nat.mod_eq_of_lt (hb _ (ds.getElem_mem h1)),
      Nat.mod_eq_of_lt (hb _ (ds.getElem_mem h1))]

theorem le32_sum (x : Nat) (h : x < 2 ^ 32) :
    x % 256 + 256 * (x / 256 % 256) + 65536 * (x / 65536 % 256) +
      16777216 * (x / 16777216 % 256) = x := by
  omega

/-! ## Claim C9: flash device bounds checking -/

/-- Claim C9 as stated is false: when addr + len wraps around 32-bit
arithmetic the bounds check is bypassed.  At addr = 2^32 - 1 with one data
byte, the whole addressed range lies outside the device, yet flash_write
stores the byte (device storage changes at address 2^32 - 1). -/
theorem claim_C9_counterexample :
    FLASH_SIZE ≤ 4294967295 ∧
    flash_write flashAllFF 4294967295 [0] 4294967295 = 0 ∧
    flashAllFF 4294967295 = 0xFF := by
  refine ⟨by decide, ?_, rfl⟩
  show (if (4294967295 + 1) % 2 ^ 32 > FLASH_SIZE then flashAllFF 4294967295
        else writeBytes flashAllFF 4294967295 [0] 4294967295) = 0
  rw [if_neg (by decide)]
  rfl

/-- Claim C9 (amended): flash_read and flash_write are no-ops whenever the
addressed range [addr, addr + len) extends past the device AND addr + len
does not wrap past 2^32; with a 32-bit wrap the check is bypassed. -/
theorem claim_C9_amended (m : Flash) (addr : Nat) (data buf : List Nat) (len : Nat)
    (hw1 : FLASH_SIZE < addr + data.length) (hw2 : addr + data.length < 2 ^ 32)
    (hr1 : FLASH_SIZE < addr + len) (hr2 : addr + len < 2 ^ 32) :
    flash_write m addr data = m ∧ flash_read m addr len buf = buf := by
  constructor
  · funext a
    unfold flash_write
    rw [Nat.mod_eq_of_lt hw2, if_pos hw1]
  · unfold flash_read
    rw [Nat.mod_eq_of_lt hr2, if_pos hr1]

/-- Witness for claim C9 (amended) at a concrete just-out-of-range address. -/
theorem claim_C9_witness :
    flash_write flashAllFF 4194304 [0] = flashAllFF ∧
    flash_read flashAllFF 4194304 1 [] = [] :=
  claim_C9_amended flashAllFF 4194304 [0] [] 1 (by decide) (by decide) (by decide) (by decide)

/-! ## Claim C7: rollover-safe sequence comparison and head/tail election -/

/-- A valid ALLOCATED sector header image for a given sequence id, as
programmed by fcb_append_sector. -/
def allocHeaderBytes (seq : Nat) : List Nat :=
  le32 SECTOR_MAGIC ++ le32 seq ++
    le32 (crc32_gen (le32 SECTOR_MAGIC ++ le32 seq)) ++ le32 STATE_ALLOCATED

/-- Media of the rollover scenario: sector 0 carries sequence id 0xFFFFFFFE,
sector 1 carries sequence id 0x00000001, both valid ALLOCATED headers. -/
def mediaC7 : Flash :=
  writeBytes (writeBytes flashAllFF 0 (allocHeaderBytes 0xFFFFFFFE))
    FLASH_SECTOR_SIZE (allocHeaderBytes 1)

/-- FCB instance over the whole device used by the concrete scenarios. -/
def fcbAll : Fcb :=
  { first_sector := 0, last_sector := 63, sector_size := FLASH_SECTOR_SIZE
  , current_sector_id := 0, write_addr := 0, read_addr := 0, delete_addr := 0 }

/-- Claim C7: SEQ_IS_NEWER is rollover-correct — for 32-bit values whose
modular distance is below 2^31 it holds exactly when a is ahead of b modulo
2^32 — and on media holding exactly two valid ALLOCATED sectors with
sequence ids 0xFFFFFFFE and 0x00000001 the election picks the 0x00000001
sector as head and the 0xFFFFFFFE sector as tail. -/
theorem claim_C7 :
    (∀ a b : Nat, a < 2 ^ 32 → b < 2 ^ 32 →
      min ((a + 2 ^ 32 - b) % 2 ^ 32) (2 ^ 32 - (a + 2 ^ 32 - b) % 2 ^ 32) < 2 ^ 31 →
      (SEQ_IS_NEWER a b = true ↔ ∃ k, 0 < k ∧ k < 2 ^ 31 ∧ a = (b + k) % 2 ^ 32)) ∧
    fcb_find_head_tail mediaC7 fcbAll = (some 1, some 0, 1) := by
  constructor
  · intro a b ha hb hdist
    unfold SEQ_IS_NEWER
    simp only [decide_eq_true_eq]
    constructor
    · rintro ⟨h1, h2⟩
      exact ⟨(a % 2 ^ 32 + 2 ^ 32 - b % 2 ^ 32) % 2 ^ 32, h1, h2, by omega⟩
    · rintro ⟨k, hk0, hk1, hEq⟩
      omega
  · decide

/-- Witness for claim C7 at the rollover pair (1, 0xFFFFFFFE). -/
theorem claim_C7_witness : SEQ_IS_NEWER 1 0xFFFFFFFE = true :=
  (claim_C7.1 1 0xFFFFFFFE (by decide) (by decide) (by decide)).2
    ⟨3, by decide, by decide, by decide⟩

/-! ## Claim C2: append argument and ring-full error paths -/

/-- Claim C2: fcb_append returns -1 on a null control block, null data or
zero length without touching anything, and returns -2 with the control
block and the media unchanged when the record does not fit in the current
sector and the ring successor holds the tail. -/
theorem claim_C2 (fcb_arg : Option Fcb) (data_arg : Option (List Nat)) (m : Flash) :
    ((fcb_arg = none ∨ data_arg = none ∨ data_arg = some []) →
      fcb_append fcb_arg data_arg m = (-1, fcb_arg, m)) ∧
    (∀ fcb data, fcb_arg = some fcb → data_arg = some data → data ≠ [] →
      FLASH_SECTOR_SIZE < fcb.write_addr % FLASH_SECTOR_SIZE + (12 + data.length) →
      ringNext fcb.first_sector fcb.last_sector (fcb.write_addr / FLASH_SECTOR_SIZE) =
        fcb.read_addr / FLASH_SECTOR_SIZE →
      fcb_append fcb_arg data_arg m = (-2, some fcb, m)) := by
  constructor
  · rintro (h | h | h)
    · subst h; rfl
    · subst h; cases fcb_arg <;> rfl
    · subst h
      cases fcb_arg with
      | none => rfl
      | some fcb => rfl
  · intro fcb data hf hd hne hfit hring
    subst hf; subst hd
    have hlen : data.length ≠ 0 := by simpa using hne
    simp only [fcb_append, if_neg hlen]
    rw [if_pos (by omega), if_pos hring]

/-- Witness for claim C2: a null control block, and a concrete full ring. -/
theorem claim_C2_witness :
    fcb_append none (some [1]) flashAllFF = (-1, none, flashAllFF) ∧
    fcb_append (some { first_sector := 0, last_sector := 1
                     , sector_size := FLASH_SECTOR_SIZE, current_sector_id := 0
                     , write_addr := 65530, read_addr := 65552, delete_addr := 65552 })
      (some [1]) flashAllFF =
      (-2, some { first_sector := 0, last_sector := 1
                , sector_size := FLASH_SECTOR_SIZE, current_sector_id := 0
                , write_addr := 65530, read_addr := 65552, delete_addr := 65552 },
        flashAllFF) :=
  ⟨(claim_C2 none (some [1]) flashAllFF).1 (Or.inl rfl),
   (claim_C2 _ (some [1]) flashAllFF).2 _ [1] rfl rfl (by decide) (by decide) (by decide)⟩

/-! ## Claim C8: erase semantics and idempotence -/

theorem eraseSectors_out (c : Nat) : ∀ (m : Flash) (i a : Nat),
    (∀ j, j < c → a < (i + j) * FLASH_SECTOR_SIZE ∨ (i + j + 1) * FLASH_SECTOR_SIZE ≤ a ∨
      FLASH_SECTOR_COUNT ≤ i + j) →
    eraseSectors m i c a = m a := by
  induction c with
  | zero => intro m i a _; rfl
  | succ c ih =>
    intro m i a h
    rw [eraseSectors_succ]
    have hrest : ∀ j, j < c → a < (i + 1 + j) * FLASH_SECTOR_SIZE ∨
        (i + 1 + j + 1) * FLASH_SECTOR_SIZE ≤ a ∨ FLASH_SECTOR_COUNT ≤ i + 1 + j := by
      intro j hj
      have hsj := h (j + 1) (by omega)
      rw [sectorSize_eq] at hsj ⊢
      rw [sectorCount_eq] at hsj ⊢
      omega
    rw [ih _ (i + 1) a hrest]
    rcases Nat.lt_or_ge i FLASH_SECTOR_COUNT with hi | hi
    · rw [flash_erase_sector_apply m i a hi, if_neg]
      have h0 := h 0 (by omega)
      rw [sectorCount_eq] at hi
      rw [sectorSize_eq] at h0 ⊢
      rw [sectorCount_eq] at h0
      omega
    · rw [flash_erase_sector_oob m i hi]

theorem eraseSectors_in (c : Nat) : ∀ (m : Flash) (i a j : Nat), j < c →
    i + j < FLASH_SECTOR_COUNT → (i + j) * FLASH_SECTOR_SIZE ≤ a →
    a < (i + j + 1) * FLASH_SECTOR_SIZE → eraseSectors m i c a = 0xFF := by
  induction c with
  | zero => intro m i a j hj; omega
  | succ c ih =>
    intro m i a j hj hcnt hlow hhigh
    rw [eraseSectors_succ]
    cases j with
    | zero =>
      rw [eraseSectors_out c _ (i + 1) a ?_]
      · rw [flash_erase_sector_apply m i a (by omega), if_pos]
        constructor
        · simpa using hlow
        · rw [sectorSize_eq] at hhigh ⊢
          omega
      · intro j2 hj2
        left
        rw [sectorSize_eq] at hhigh ⊢
        omega
    | succ j2 =>
      apply ih _ (i + 1) a j2 (by omega) (by omega)
      · rw [sectorSize_eq] at hlow ⊢
        omega
      · rw [sectorSize_eq] at hhigh ⊢
        omega

/-- Claim C8: fcb_erase on a non-null control block returns 0, leaves every
device byte of every sector in [first_sector, last_sector] at 0xFF, resets
current_sector_id to 0 and all three addresses to first_sector offset 16;
a second erase leaves the control block and the media identical. -/
theorem claim_C8 (fcb : Fcb) (m : Flash) :
    ∃ fcb1 m1, fcb_erase (some fcb) m = (0, some fcb1, m1) ∧
      fcb1.current_sector_id = 0 ∧
      fcb1.write_addr = fcb.first_sector * FLASH_SECTOR_SIZE + 16 ∧
      fcb1.read_addr = fcb1.write_addr ∧ fcb1.delete_addr = fcb1.write_addr ∧
      (∀ a, a < FLASH_SIZE → fcb.first_sector * FLASH_SECTOR_SIZE ≤ a →
        a < (fcb.last_sector + 1) * FLASH_SECTOR_SIZE → m1 a = 0xFF) ∧
      fcb_erase (some fcb1) m1 = (0, some fcb1, m1) := by
  refine ⟨_, _, rfl, rfl, rfl, rfl, rfl, ?_, ?_⟩
  · intro a h1 h2 h3
    apply eraseSectors_in _ _ _ a (a / FLASH_SECTOR_SIZE - fcb.first_sector) ?_ ?_ ?_ ?_ <;>
      (rw [sectorSize_eq] at *; rw [flashSize_eq] at h1; try rw [sectorCount_eq]) <;> omega
  · have hmedia : eraseSectors (eraseSectors m fcb.first_sector
        (fcb.last_sector + 1 - fcb.first_sector)) fcb.first_sector
        (fcb.last_sector + 1 - fcb.first_sector) =
        eraseSectors m fcb.first_sector (fcb.last_sector + 1 - fcb.first_sector) := by
      funext a
      by_cases hcov : fcb.first_sector * FLASH_SECTOR_SIZE ≤ a ∧
          a < (fcb.last_sector + 1) * FLASH_SECTOR_SIZE ∧ a < FLASH_SIZE
      · rw [eraseSectors_in _ _ _ a (a / FLASH_SECTOR_SIZE - fcb.first_sector) ?_ ?_ ?_ ?_,
            eraseSectors_in _ _ _ a (a / FLASH_SECTOR_SIZE - fcb.first_sector) ?_ ?_ ?_ ?_] <;>
          (rw [sectorSize_eq] at *; try rw [flashSize_eq] at hcov; try rw [sectorCount_eq]) <;>
          omega
      · rw [eraseSectors_out, eraseSectors_out] <;>
          (intro j hj; rw [sectorSize_eq] at *; rw [flashSize_eq] at hcov;
           rw [sectorCount_eq]; omega)
    simp only [fcb_erase]
    rw [hmedia]

/-- Witness for claim C8: erasing a concrete dirty device leaves a mid-range
byte of an owned sector at 0xFF. -/
theorem claim_C8_witness :
    (fcb_erase (some fcbAll) (fun _ => 0)).2.2 1000 = 0xFF := by
  obtain ⟨fcb1, m1, heq, -, -, -, -, hbytes, -⟩ := claim_C8 fcbAll (fun _ => 0)
  have hm : (fcb_erase (some fcbAll) (fun _ => 0)).2.2 = m1 := by rw [heq]
  rw [hm]
  exact hbytes 1000 (by decide) (by decide) (by decide)

/-! ## Claim C1: erase-then-append scenario -/

/-- State after fcb_erase of the whole device starting from fully erased
media (the erase-then-append scenario start). -/
def stateC1 : Int × Option Fcb × Flash := fcb_erase (some fcbAll) flashAllFF

/-- Media after appending the single byte 0x41 to the freshly erased FCB. -/
def mediaC1 : Flash := (fcb_append stateC1.2.1 (some [0x41]) stateC1.2.2).2.2

/-- Claim C1 as stated is false: after a successful erase and a successful
append of one byte, sector 0 holds NO valid sector header — its magic word
still reads 0xFFFFFFFF, so fcb_get_sector_status reports STATE_INVALID and
the stored sequence-id word is 0xFFFFFFFF rather than 1. -/
theorem claim_C1_counterexample :
    stateC1.1 = 0 ∧
    (fcb_append stateC1.2.1 (some [0x41]) stateC1.2.2).1 = 0 ∧
    fcb_get_sector_status mediaC1 0 = STATE_INVALID ∧
    readLe32 mediaC1 4 = 0xFFFFFFFF := by decide

/-- Claim C1 (amended): after fcb_erase followed by fcb_append of the byte
0x41, the record at offset 16 of sector 0 has magic 0xA55A, len 1, payload
0x41, CRC equal to crc32 of the payload and status 0x0000FFFF, while the
16-byte sector header region remains erased (all 0xFF): no sector header
with sequence_id 1 is programmed by this sequence of calls. -/
theorem claim_C1_amended :
    stateC1.1 = 0 ∧
    (fcb_append stateC1.2.1 (some [0x41]) stateC1.2.2).1 = 0 ∧
    readLe16 mediaC1 16 = FCB_ENTRY_MAGIC ∧
    readLe16 mediaC1 18 = 1 ∧
    readByte mediaC1 28 = 0x41 ∧
    readLe32 mediaC1 20 = crc32_gen [0x41] ∧
    readLe32 mediaC1 24 = FCB_STATUS_VALID ∧
    readLe32 mediaC1 0 = 0xFFFFFFFF ∧ readLe32 mediaC1 4 = 0xFFFFFFFF ∧
    readLe32 mediaC1 8 = 0xFFFFFFFF ∧ readLe32 mediaC1 12 = 0xFFFFFFFF := by decide

/-- Evaluation of fcb_append on the rotation path: the record does not fit
in the current sector and the ring successor is not the tail sector. -/
theorem fcb_append_rotate (fcb : Fcb) (data : List Nat) (m : Flash)
    (hne : data.length ≠ 0)
    (hbig : FLASH_SECTOR_SIZE < fcb.write_addr % FLASH_SECTOR_SIZE + (12 + data.length))
    (hnf : ringNext fcb.first_sector fcb.last_sector (fcb.write_addr / FLASH_SECTOR_SIZE) ≠
      fcb.read_addr / FLASH_SECTOR_SIZE) :
    fcb_append (some fcb) (some data) m =
      (let next := ringNext fcb.first_sector fcb.last_sector
         (fcb.write_addr / FLASH_SECTOR_SIZE)
       let am := fcb_append_sector fcb next (flash_erase_sector m (next * FLASH_SECTOR_SIZE))
       ((0 : Int),
        some { am.1 with
                 write_addr := next * FLASH_SECTOR_SIZE + 16 + (12 + data.length) },
        flash_write
          (flash_write am.2 (next * FLASH_SECTOR_SIZE + 16)
            (itemKeyBytes { magic := FCB_ENTRY_MAGIC, len := data.length
                          , crc := crc32_gen data, status := FCB_STATUS_VALID }))
          (next * FLASH_SECTOR_SIZE + 16 + 12) data)) := by
  simp only [fcb_append, if_neg hne, if_pos hbig, if_neg hnf]

/-! ## Claim C3: oversize append is not rejected -/

/-- flash_write evaluated at one probe address. -/
theorem flash_write_at (m : Flash) (addr : Nat) (ds : List Nat) (a : Nat) :
    flash_write m addr ds a =
      if (addr + ds.length) % 2 ^ 32 > FLASH_SIZE then m a else writeBytes m addr ds a := rfl

/-- A freshly erased whole-device FCB (the state fcb_erase produces). -/
def fcbC3 : Fcb :=
  { first_sector := 0, last_sector := 63, sector_size := FLASH_SECTOR_SIZE
  , current_sector_id := 0, write_addr := 16, read_addr := 16, delete_addr := 16 }

/-- An oversize payload: 65509 bytes, one more than fits in any sector. -/
def dataC3 : List Nat := List.replicate 65509 0x41

/-- Result of appending the oversize payload to the erased FCB. -/
def resC3 : Int × Option Fcb × Flash := fcb_append (some fcbC3) (some dataC3) flashAllFF

/-- Claim C3 names a code bug: an append whose payload exceeds
FLASH_SECTOR_SIZE - 16 - 12 = 65508 bytes is NOT rejected.  On a freshly
erased FCB, appending 65509 bytes returns 0, rotates to sector 1, places
the record header at address 65552 and writes the payload across the
sector boundary: its last byte lands at address 131072, the first byte of
sector 2, so the record straddles two sectors. -/
theorem claim_C3_code_bug :
    65508 < dataC3.length ∧
    resC3.1 = 0 ∧
    resC3.2.1 = some { first_sector := 0, last_sector := 63,
                       sector_size := FLASH_SECTOR_SIZE, current_sector_id := 1,
                       write_addr := 131073, read_addr := 16, delete_addr := 16 } ∧
    resC3.2.2 131072 = 0x41 ∧
    flashAllFF 131072 = 0xFF ∧
    131072 = 2 * FLASH_SECTOR_SIZE := by
  have hlen : dataC3.length = 65509 := by
    rw [dataC3.eq_def, List.length_replicate]
  have hring : ringNext fcbC3.first_sector fcbC3.last_sector
      (fcbC3.write_addr / FLASH_SECTOR_SIZE) = 1 := by
    simp [ringNext, fcbC3, sectorSize_eq]
  have hres := fcb_append_rotate fcbC3 dataC3 flashAllFF
    (by rw [hlen]; norm_num)
    (by rw [hlen, sectorSize_eq]; simp [fcbC3])
    (by rw [hring]; simp [fcbC3, sectorSize_eq])
  rw [hring] at hres
  simp only [hlen] at hres
  have hr : resC3 = fcb_append (some fcbC3) (some dataC3) flashAllFF := rfl
  rw [hr, hres]
  dsimp only
  refine ⟨by rw [hlen]; norm_num, rfl, rfl, ?_, by decide, by decide⟩
  rw [flash_write_at, hlen]
  rw [if_neg (by rw [sectorSize_eq, flashSize_eq]; norm_num)]
  rw [writeBytes_apply, hlen]
  rw [if_pos (by rw [sectorSize_eq]; norm_num)]
  rw [dataC3.eq_def, sectorSize_eq]
  norm_num [getD_replicate]

/-! ## Claim C10: cold-path appends never program the sector header region -/

/-- Total on-media size of a list of records: 12-byte key plus payload each. -/
def itemsSize (ds : List (List Nat)) : Nat := (ds.map (fun d => 12 + d.length)).sum

/-- Iterated fcb_append over a list of payloads, threading control block and
media exactly as repeated calls would. -/
def fcb_append_iter : Option Fcb → Flash → List (List Nat) → Option Fcb × Flash
  | f, m, [] => (f, m)
  | f, m, d :: ds =>
    fcb_append_iter (fcb_append f (some d) m).2.1 (fcb_append f (some d) m).2.2 ds

theorem itemsSize_cons (d : List Nat) (ds : List (List Nat)) :
    itemsSize (d :: ds) = 12 + d.length + itemsSize ds := by
  simp [itemsSize]

/-- Evaluation of fcb_append on the in-sector path: the record fits at the
current write position, so no rotation happens. -/
theorem fcb_append_fit (fcb : Fcb) (data : List Nat) (m : Flash)
    (hne : data.length ≠ 0)
    (hfit : fcb.write_addr % FLASH_SECTOR_SIZE + (12 + data.length) ≤ FLASH_SECTOR_SIZE) :
    fcb_append (some fcb) (some data) m =
      ((0 : Int),
       some { fcb with write_addr := fcb.write_addr + (12 + data.length) },
       flash_write
         (flash_write m fcb.write_addr
           (itemKeyBytes { magic := FCB_ENTRY_MAGIC, len := data.length
                         , crc := crc32_gen data, status := FCB_STATUS_VALID }))
         (fcb.write_addr + 12) data) := by
  simp only [fcb_append, if_neg hne, if_neg (show ¬ FLASH_SECTOR_SIZE <
    fcb.write_addr % FLASH_SECTOR_SIZE + (12 + data.length) by omega)]

/-- flash_write leaves every byte outside the written range unchanged. -/
theorem flash_write_frame (m : Flash) (addr : Nat) (ds : List Nat) (a : Nat)
    (h : a < addr ∨ addr + ds.length ≤ a) : flash_write m addr ds a = m a := by
  rw [flash_write_at]
  by_cases hg : (addr + ds.length) % 2 ^ 32 > FLASH_SIZE
  · rw [if_pos hg]
  · rw [if_neg hg, writeBytes_apply, if_neg (by omega)]

/-- Iterated fitting appends advance write_addr by the total record size and
touch no media byte outside the written window. -/
theorem append_iter_frame (ds : List (List Nat)) : ∀ (fcb : Fcb) (m : Flash) (w0 : Nat),
    fcb.write_addr = fcb.first_sector * FLASH_SECTOR_SIZE + w0 → 16 ≤ w0 →
    w0 + itemsSize ds ≤ FLASH_SECTOR_SIZE → (∀ d ∈ ds, d ≠ []) →
    ∃ fcb1 m1, fcb_append_iter (some fcb) m ds = (some fcb1, m1) ∧
      fcb1.first_sector = fcb.first_sector ∧ fcb1.last_sector = fcb.last_sector ∧
      fcb1.write_addr = fcb.first_sector * FLASH_SECTOR_SIZE + (w0 + itemsSize ds) ∧
      ∀ a, a < fcb.first_sector * FLASH_SECTOR_SIZE + w0 ∨
        fcb.first_sector * FLASH_SECTOR_SIZE + (w0 + itemsSize ds) ≤ a → m1 a = m a := by
  induction ds with
  | nil =>
    intro fcb m w0 hw _ _ _
    exact ⟨fcb, m, rfl, rfl, rfl, by simpa [itemsSize] using hw, fun a _ => rfl⟩
  | cons d ds ih =>
    intro fcb m w0 hw h16 hfit hne
    rw [itemsSize_cons] at hfit ⊢
    have hdne : d.length ≠ 0 := by
      have := hne d (by simp)
      simpa using this
    have hmod : fcb.write_addr % FLASH_SECTOR_SIZE = w0 := by
      rw [hw, Nat.add_comm, Nat.add_mul_mod_self_right]
      exact Nat.mod_eq_of_lt (by rw [sectorSize_eq] at hfit ⊢; omega)
    have hstep := fcb_append_fit fcb d m hdne (by rw [hmod]; omega)
    simp only [fcb_append_iter, hstep]
    obtain ⟨fcb1, m1, hiter, hf, hl, hwa, hframe⟩ :=
      ih { fcb with write_addr := fcb.write_addr + (12 + d.length) }
        (flash_write
          (flash_write m fcb.write_addr
            (itemKeyBytes { magic := FCB_ENTRY_MAGIC, len := d.length, crc := crc32_gen d, status := FCB_STATUS_VALID }))
          (fcb.write_addr + 12) d)
        (w0 + (12 + d.length))
        (by dsimp only; rw [hw]; omega) (by omega) (by omega)
        (fun d2 hd2 => hne d2 (by simp [hd2]))
    dsimp only at hiter hf hl hwa hframe
    refine ⟨fcb1, m1, hiter, hf, hl, by rw [hwa]; omega, ?_⟩
    intro a ha
    rw [hframe a (by omega)]
    have hkey : (itemKeyBytes { magic := FCB_ENTRY_MAGIC, len := d.length, crc := crc32_gen d, status := FCB_STATUS_VALID }).length = 12 := by
      simp [itemKeyBytes, le16, le32]
    rw [flash_write_frame _ _ _ _ (by rw [hw]; omega),
        flash_write_frame _ _ _ _ (by rw [hkey, hw]; omega)]

/-- Claim C10: after fcb_erase, or after a cold-start mount whose header
region reads erased, any sequence of successful in-sector appends programs
only the record keys and payloads: write_addr advances by exactly the total
record size, the 16 header bytes of the first sector still read 0xFF (so the
sector has no valid ALLOCATED header — its status reads STATE_INVALID), and
no byte outside the written window changes. -/
theorem claim_C10 (fcb : Fcb) (m : Flash) (ds : List (List Nat)) (fcb0 : Fcb) (m0 : Flash)
    (hfl : fcb.first_sector ≤ fcb.last_sector) (hl : fcb.last_sector < FLASH_SECTOR_COUNT)
    (hstart : fcb_erase (some fcb) m = (0, some fcb0, m0) ∨
      (fcb_mount (some fcb) m = (0, some fcb0, m0) ∧
       (fcb_find_head_tail m fcb).1 = none ∧
       (∀ j, j < 16 → readByte m (fcb.first_sector * FLASH_SECTOR_SIZE + j) = 0xFF)))
    (hne : ∀ d ∈ ds, d ≠ []) (hfit : 16 + itemsSize ds ≤ FLASH_SECTOR_SIZE) :
    ∃ fcb1 m1, fcb_append_iter (some fcb0) m0 ds = (some fcb1, m1) ∧
      fcb1.write_addr = fcb.first_sector * FLASH_SECTOR_SIZE + (16 + itemsSize ds) ∧
      (∀ j, j < 16 → readByte m1 (fcb.first_sector * FLASH_SECTOR_SIZE + j) = 0xFF) ∧
      fcb_get_sector_status m1 fcb.first_sector = STATE_INVALID ∧
      (∀ a, a < fcb.first_sector * FLASH_SECTOR_SIZE + 16 ∨
        fcb.first_sector * FLASH_SECTOR_SIZE + (16 + itemsSize ds) ≤ a → m1 a = m0 a) := by
  have hcold : fcb0.first_sector = fcb.first_sector ∧
      fcb0.write_addr = fcb.first_sector * FLASH_SECTOR_SIZE + 16 ∧
      (∀ j, j < 16 → readByte m0 (fcb.first_sector * FLASH_SECTOR_SIZE + j) = 0xFF) := by
    rcases hstart with hE | ⟨hM, hhead, hFF⟩
    · simp only [fcb_erase, Prod.mk.injEq, Option.some.injEq] at hE
      obtain ⟨-, hc, hm⟩ := hE
      rw [← hc, ← hm]
      refine ⟨rfl, rfl, ?_⟩
      intro j hj
      unfold readByte
      rw [eraseSectors_in _ _ _ _ 0 (by omega) (by omega)
        (by rw [sectorSize_eq] at *; omega) (by rw [sectorSize_eq] at *; omega)]
    · rcases ht : fcb_find_head_tail m fcb with ⟨hd, tl, hi⟩
      rw [ht] at hhead
      simp only at hhead
      subst hhead
      simp only [fcb_mount, ht, Prod.mk.injEq, Option.some.injEq] at hM
      obtain ⟨-, hc, hm⟩ := hM
      rw [← hc, ← hm]
      exact ⟨rfl, rfl, hFF⟩
  obtain ⟨hfst, hwa0, hFF0⟩ := hcold
  obtain ⟨fcb1, m1, hiter, hf1, hl1, hwa1, hframe⟩ :=
    append_iter_frame ds fcb0 m0 16 (by rw [hwa0, hfst]) (by omega)
      (by omega) hne
  rw [hfst] at hwa1 hframe
  refine ⟨fcb1, m1, hiter, hwa1, ?_, ?_, hframe⟩
  · intro j hj
    unfold readByte
    rw [hframe _ (by left; omega)]
    exact hFF0 j hj
  · have hr32 : readLe32 m1 (fcb.first_sector * FLASH_SECTOR_SIZE) =
        readLe32 m0 (fcb.first_sector * FLASH_SECTOR_SIZE) := by
      unfold readLe32 readByte
      rw [hframe (fcb.first_sector * FLASH_SECTOR_SIZE) (Or.inl (by omega)),
        hframe (fcb.first_sector * FLASH_SECTOR_SIZE + 1) (Or.inl (by omega)),
        hframe (fcb.first_sector * FLASH_SECTOR_SIZE + 2) (Or.inl (by omega)),
        hframe (fcb.first_sector * FLASH_SECTOR_SIZE + 3) (Or.inl (by omega))]
    have hmagic : readLe32 m1 (fcb.first_sector * FLASH_SECTOR_SIZE) = 0xFFFFFFFF := by
      rw [hr32, readLe32_ff_iff]
      exact ⟨by simpa using hFF0 0 (by omega), hFF0 1 (by omega),
        hFF0 2 (by omega), hFF0 3 (by omega)⟩
    unfold fcb_get_sector_status
    rw [if_neg (by omega), if_pos]
    show readLe32 m1 (fcb.first_sector * FLASH_SECTOR_SIZE) ≠ SECTOR_MAGIC
    rw [hmagic]
    decide

/-- Witness for claim C10: two small appends on a freshly erased device. -/
theorem claim_C10_witness :
    ∃ fcb1 m1, fcb_append_iter (some fcbC3) (eraseSectors flashAllFF 0 64) [[1], [2, 3]] =
        (some fcb1, m1) ∧
      fcb1.write_addr = fcbAll.first_sector * FLASH_SECTOR_SIZE + (16 + itemsSize [[1], [2, 3]]) ∧
      (∀ j, j < 16 → readByte m1 (fcbAll.first_sector * FLASH_SECTOR_SIZE + j) = 0xFF) ∧
      fcb_get_sector_status m1 fcbAll.first_sector = STATE_INVALID ∧
      (∀ a, a < fcbAll.first_sector * FLASH_SECTOR_SIZE + 16 ∨
        fcbAll.first_sector * FLASH_SECTOR_SIZE + (16 + itemsSize [[1], [2, 3]]) ≤ a →
        m1 a = eraseSectors flashAllFF 0 64 a) :=
  claim_C10 fcbAll flashAllFF [[1], [2, 3]] fcbC3 (eraseSectors flashAllFF 0 64)
    (by decide) (by decide) (Or.inl rfl) (by decide) (by decide)

/-! ## Claim C6: head-full rotation at mount -/

theorem crc32_foldl_lt (l : List Nat) : ∀ crc, crc < 2 ^ 32 →
    l.foldl crc32_update crc < 2 ^ 32 := by
  induction l with
  | nil => intro crc h; exact h
  | cons b l ih =>
    intro crc h
    refine ih _ ?_
    unfold crc32_update crc32_table_entry
    apply Nat.xor_lt_two_pow (by omega)
    have hr : ∀ c, c < 2 ^ 32 → crc32_round c < 2 ^ 32 := by
      intro c hc
      unfold crc32_round
      split
      · exact Nat.xor_lt_two_pow (by omega) (by norm_num)
      · omega
    apply hr _ (hr _ (hr _ (hr _ (hr _ (hr _ (hr _ (hr _ (by omega))))))))

theorem crc32_gen_lt (ds : List Nat) : crc32_gen ds < 2 ^ 32 := by
  unfold crc32_gen
  exact Nat.xor_lt_two_pow (crc32_foldl_lt ds _ (by norm_num)) (by norm_num)

/-- Reading a 32-bit word out of a just-written byte run recovers the value
whose little-endian bytes sit at positions k..k+3 of the run. -/
theorem readLe32_writeBytes (m : Flash) (base k : Nat) (ds : List Nat) (x : Nat)
    (hx : x < 2 ^ 32)
    (h0 : ds.getD k 0 = x % 256) (h1 : ds.getD (k + 1) 0 = x / 256 % 256)
    (h2 : ds.getD (k + 2) 0 = x / 65536 % 256) (h3 : ds.getD (k + 3) 0 = x / 16777216 % 256)
    (hk : k + 4 ≤ ds.length) :
    readLe32 (writeBytes m base ds) (base + k) = x := by
  unfold readLe32 readByte
  rw [writeBytes_apply, writeBytes_apply, writeBytes_apply, writeBytes_apply]
  rw [if_pos (by omega), if_pos (by omega), if_pos (by omega), if_pos (by omega)]
  rw [show base + k - base = k by omega, show base + k + 1 - base = k + 1 by omega,
      show base + k + 2 - base = k + 2 by omega, show base + k + 3 - base = k + 3 by omega]
  rw [h0, h1, h2, h3]
  omega

/-- The first len bytes read back from a written run are its first len values. -/
theorem readBytes_writeBytes_take (m : Flash) (addr : Nat) (ds : List Nat) (len : Nat)
    (hlen : len ≤ ds.length) (hb : ∀ b ∈ ds, b < 256) :
    readBytes (writeBytes m addr ds) addr len = ds.take len := by
  apply List.ext_getElem
  · simp [readBytes]
    omega
  · intro i h1 h2
    simp only [readBytes, List.getElem_map, List.getElem_range, List.getElem_take]
    simp only [readBytes, List.length_map, List.length_range] at h1
    unfold readByte
    rw [writeBytes_apply, if_pos (by omega)]
    have hi : addr + i - addr = i := by omega
    rw [hi, getD_eq_getElem ds i (by omega),
      Nat.mod_eq_of_lt (hb _ (ds.getElem_mem (by omega))),
      Nat.mod_eq_of_lt (hb _ (ds.getElem_mem (by omega)))]

/-- The head sector elected by the scan loop is either the incoming
candidate or lies in the visited index window. -/
theorem fhtGo_head_range (m : Flash) : ∀ (count i : Nat) (head tail : Option Nat)
    (hi lo h : Nat), (fhtGo m i count head tail hi lo).1 = some h →
    head = some h ∨ (i ≤ h ∧ h < i + count) := by
  intro count
  induction count with
  | zero =>
    intro i head tail hi lo h hres
    exact Or.inl hres
  | succ c ih =>
    intro i head tail hi lo h hres
    simp only [fhtGo] at hres
    by_cases hskip : fcb_get_sector_status m i = STATE_INVALID ∨
        fcb_get_sector_status m i = STATE_FRESH
    · rw [if_pos hskip] at hres
      rcases ih (i + 1) _ _ _ _ h hres with h1 | h2
      · exact Or.inl h1
      · right; omega
    · rw [if_neg hskip] at hres
      by_cases hnew : head = none ∨
          SEQ_IS_NEWER (fcb_read_sector_header m i).sequence_id hi = true
      · rw [if_pos hnew] at hres
        rcases ih (i + 1) _ _ _ _ h hres with h1 | h2
        · have : i = h := by simpa using h1
          right; omega
        · right; omega
      · rw [if_neg hnew] at hres
        rcases ih (i + 1) _ _ _ _ h hres with h1 | h2
        · exact Or.inl h1
        · right; omega

/-- The head sector elected by fcb_find_head_tail lies in the FCB range. -/
theorem fht_head_range (m : Flash) (fcb : Fcb) (h : Nat)
    (hres : (fcb_find_head_tail m fcb).1 = some h) :
    fcb.first_sector ≤ h ∧ h ≤ fcb.last_sector := by
  rcases fhtGo_head_range m _ _ _ _ _ _ h hres with h1 | h2
  · cases h1
  · omega

theorem sectorHeaderBytes_length (hdr : SectorHeader) : (sectorHeaderBytes hdr).length = 16 := by
  simp [sectorHeaderBytes, le32]

theorem sectorHeaderBytes_lt (hdr : SectorHeader) : ∀ b ∈ sectorHeaderBytes hdr, b < 256 := by
  intro b hb
  simp [sectorHeaderBytes, le32] at hb
  rcases hb with ⟨h⟩ | ⟨h⟩ | ⟨h⟩ | ⟨h⟩ <;> omega

/-- The sector header fcb_append_sector programs: given sequence id, state
ALLOCATED, CRC over magic and sequence id. -/
def allocHeader (seqv : Nat) : SectorHeader :=
  { magic := SECTOR_MAGIC, sequence_id := seqv,
    header_crc := crc32_gen (le32 SECTOR_MAGIC ++ le32 seqv),
    state := STATE_ALLOCATED }

theorem fcb_append_sector_eval (fcb : Fcb) (s : Nat) (m : Flash)
    (hs : s < FLASH_SECTOR_COUNT) :
    fcb_append_sector fcb s m =
      ({ fcb with current_sector_id := (fcb.current_sector_id + 1) % 2 ^ 32 },
       fcb_write_sector_header m s (allocHeader ((fcb.current_sector_id + 1) % 2 ^ 32))) := by
  simp only [fcb_append_sector, if_neg (show ¬ s ≥ FLASH_SECTOR_COUNT by omega)]
  rfl

theorem fcb_write_sector_header_eval (m : Flash) (s : Nat) (hdr : SectorHeader)
    (hs : s < FLASH_SECTOR_COUNT) :
    fcb_write_sector_header m s hdr =
      writeBytes m (s * FLASH_SECTOR_SIZE) (sectorHeaderBytes hdr) := by
  unfold fcb_write_sector_header
  rw [if_neg (by omega)]
  apply flash_write_in_range
  rw [sectorHeaderBytes_length]
  rw [sectorSize_eq, flashSize_eq]
  rw [sectorCount_eq] at hs
  omega

/-- Byte-level layout of the serialized sector header. -/
theorem shb_getD0 (hdr : SectorHeader) :
    (sectorHeaderBytes hdr).getD 0 0 = hdr.magic % 256 := rfl

theorem shb_getD1 (hdr : SectorHeader) :
    (sectorHeaderBytes hdr).getD 1 0 = hdr.magic / 256 % 256 := rfl

theorem shb_getD2 (hdr : SectorHeader) :
    (sectorHeaderBytes hdr).getD 2 0 = hdr.magic / 65536 % 256 := rfl

theorem shb_getD3 (hdr : SectorHeader) :
    (sectorHeaderBytes hdr).getD 3 0 = hdr.magic / 16777216 % 256 := rfl

theorem shb_getD4 (hdr : SectorHeader) :
    (sectorHeaderBytes hdr).getD 4 0 = hdr.sequence_id % 256 := rfl

theorem shb_getD5 (hdr : SectorHeader) :
    (sectorHeaderBytes hdr).getD 5 0 = hdr.sequence_id / 256 % 256 := rfl

theorem shb_getD6 (hdr : SectorHeader) :
    (sectorHeaderBytes hdr).getD 6 0 = hdr.sequence_id / 65536 % 256 := rfl

theorem shb_getD7 (hdr : SectorHeader) :
    (sectorHeaderBytes hdr).getD 7 0 = hdr.sequence_id / 16777216 % 256 := rfl

theorem shb_getD8 (hdr : SectorHeader) :
    (sectorHeaderBytes hdr).getD 8 0 = hdr.header_crc % 256 := rfl

theorem shb_getD9 (hdr : SectorHeader) :
    (sectorHeaderBytes hdr).getD 9 0 = hdr.header_crc / 256 % 256 := rfl

theorem shb_getD10 (hdr : SectorHeader) :
    (sectorHeaderBytes hdr).getD 10 0 = hdr.header_crc / 65536 % 256 := rfl

theorem shb_getD11 (hdr : SectorHeader) :
    (sectorHeaderBytes hdr).getD 11 0 = hdr.header_crc / 16777216 % 256 := rfl

theorem shb_getD12 (hdr : SectorHeader) :
    (sectorHeaderBytes hdr).getD 12 0 = hdr.state % 256 := rfl

theorem shb_getD13 (hdr : SectorHeader) :
    (sectorHeaderBytes hdr).getD 13 0 = hdr.state / 256 % 256 := rfl

theorem shb_getD14 (hdr : SectorHeader) :
    (sectorHeaderBytes hdr).getD 14 0 = hdr.state / 65536 % 256 := rfl

theorem shb_getD15 (hdr : SectorHeader) :
    (sectorHeaderBytes hdr).getD 15 0 = hdr.state / 16777216 % 256 := rfl

theorem shb_take8 (hdr : SectorHeader) :
    (sectorHeaderBytes hdr).take 8 = le32 hdr.magic ++ le32 hdr.sequence_id := rfl

theorem allocHeader_magic (seqv : Nat) : (allocHeader seqv).magic = SECTOR_MAGIC := rfl

theorem allocHeader_sequence_id (seqv : Nat) : (allocHeader seqv).sequence_id = seqv := rfl

theorem allocHeader_header_crc (seqv : Nat) : (allocHeader seqv).header_crc = crc32_gen (le32 SECTOR_MAGIC ++ le32 seqv) := rfl

theorem allocHeader_state (seqv : Nat) : (allocHeader seqv).state = STATE_ALLOCATED := rfl

/-- A freshly programmed ALLOCATED header validates: the sector status reads
STATE_ALLOCATED and the stored sequence id reads back exactly. -/
theorem freshHeader_status (m : Flash) (s : Nat) (hs : s < FLASH_SECTOR_COUNT)
    (seqv : Nat) (hseq : seqv < 2 ^ 32) :
    fcb_get_sector_status
      (writeBytes m (s * FLASH_SECTOR_SIZE) (sectorHeaderBytes (allocHeader seqv))) s =
        STATE_ALLOCATED ∧
    readLe32 (writeBytes m (s * FLASH_SECTOR_SIZE) (sectorHeaderBytes (allocHeader seqv)))
      (s * FLASH_SECTOR_SIZE + 4) = seqv := by
  have hmag : readLe32
      (writeBytes m (s * FLASH_SECTOR_SIZE) (sectorHeaderBytes (allocHeader seqv)))
      (s * FLASH_SECTOR_SIZE) = SECTOR_MAGIC := by
    have h := readLe32_writeBytes m (s * FLASH_SECTOR_SIZE) 0
      (sectorHeaderBytes (allocHeader seqv)) SECTOR_MAGIC (by decide)
      (by rw [shb_getD0, allocHeader_magic])
      (by rw [shb_getD1, allocHeader_magic])
      (by rw [shb_getD2, allocHeader_magic])
      (by rw [shb_getD3, allocHeader_magic])
      (by have := sectorHeaderBytes_length (allocHeader seqv); omega)
    rwa [Nat.add_zero] at h
  have hseqr : readLe32
      (writeBytes m (s * FLASH_SECTOR_SIZE) (sectorHeaderBytes (allocHeader seqv)))
      (s * FLASH_SECTOR_SIZE + 4) = seqv := by
    exact readLe32_writeBytes m (s * FLASH_SECTOR_SIZE) 4
      (sectorHeaderBytes (allocHeader seqv)) seqv hseq
      (by rw [shb_getD4, allocHeader_sequence_id])
      (by rw [shb_getD5, allocHeader_sequence_id])
      (by rw [shb_getD6, allocHeader_sequence_id])
      (by rw [shb_getD7, allocHeader_sequence_id])
      (by have := sectorHeaderBytes_length (allocHeader seqv); omega)
  have hcrcr : readLe32
      (writeBytes m (s * FLASH_SECTOR_SIZE) (sectorHeaderBytes (allocHeader seqv)))
      (s * FLASH_SECTOR_SIZE + 8) = crc32_gen (le32 SECTOR_MAGIC ++ le32 seqv) := by
    exact readLe32_writeBytes m (s * FLASH_SECTOR_SIZE) 8
      (sectorHeaderBytes (allocHeader seqv)) (crc32_gen (le32 SECTOR_MAGIC ++ le32 seqv))
      (crc32_gen_lt _)
      (by rw [shb_getD8, allocHeader_header_crc])
      (by rw [shb_getD9, allocHeader_header_crc])
      (by rw [shb_getD10, allocHeader_header_crc])
      (by rw [shb_getD11, allocHeader_header_crc])
      (by have := sectorHeaderBytes_length (allocHeader seqv); omega)
  have hstater : readLe32
      (writeBytes m (s * FLASH_SECTOR_SIZE) (sectorHeaderBytes (allocHeader seqv)))
      (s * FLASH_SECTOR_SIZE + 12) = STATE_ALLOCATED := by
    exact readLe32_writeBytes m (s * FLASH_SECTOR_SIZE) 12
      (sectorHeaderBytes (allocHeader seqv)) STATE_ALLOCATED (by decide)
      (by rw [shb_getD12, allocHeader_state])
      (by rw [shb_getD13, allocHeader_state])
      (by rw [shb_getD14, allocHeader_state])
      (by rw [shb_getD15, allocHeader_state])
      (by have := sectorHeaderBytes_length (allocHeader seqv); omega)
  have hread8 : readBytes
      (writeBytes m (s * FLASH_SECTOR_SIZE) (sectorHeaderBytes (allocHeader seqv)))
      (s * FLASH_SECTOR_SIZE) 8 = le32 SECTOR_MAGIC ++ le32 seqv := by
    rw [readBytes_writeBytes_take _ _ _ 8
      (by have := sectorHeaderBytes_length (allocHeader seqv); omega)
      (sectorHeaderBytes_lt _)]
    rw [shb_take8, allocHeader_magic, allocHeader_sequence_id]
  refine ⟨?_, hseqr⟩
  unfold fcb_get_sector_status
  rw [if_neg (by omega)]
  simp only [fcb_read_sector_header, hmag, hcrcr, hread8, hstater]
  norm_num [SECTOR_MAGIC]

/-- C6: during fcb_mount with an elected head sector, if head-offset recovery
reports the head sector full (sentinel 0xFFFFFFFF), mount erases the next
sector in ring order, programs a fresh sector header there whose stored
sequence_id reads back as current_sector_id + 1 (mod 2^32) and whose state
validates as ALLOCATED, and sets write_addr to that sector offset 16; every
byte outside that sector is untouched and every byte of the sector past the
16-byte header is left erased, so mount programs no record (user) data.
Otherwise write_addr = head_sector * B + head_offset and the media is
completely untouched. -/
theorem claim_C6 (fcb : Fcb) (m : Flash) (h : Nat) (tl : Option Nat) (hi : Nat)
    (hlast : fcb.last_sector < FLASH_SECTOR_COUNT)
    (hht : fcb_find_head_tail m fcb = (some h, tl, hi)) :
    ∃ fcb1 m1, fcb_mount (some fcb) m = (0, some fcb1, m1) ∧
      (if fcb_find_sector_head_offset m h = 0xFFFFFFFF then
        fcb1.write_addr = ringNext fcb.first_sector fcb.last_sector h * FLASH_SECTOR_SIZE + 16 ∧
        fcb1.current_sector_id = (hi + 1) % 2 ^ 32 ∧
        readLe32 m1 (ringNext fcb.first_sector fcb.last_sector h * FLASH_SECTOR_SIZE + 4) =
          (hi + 1) % 2 ^ 32 ∧
        fcb_get_sector_status m1 (ringNext fcb.first_sector fcb.last_sector h) =
          STATE_ALLOCATED ∧
        (∀ a, a < ringNext fcb.first_sector fcb.last_sector h * FLASH_SECTOR_SIZE ∨
          (ringNext fcb.first_sector fcb.last_sector h + 1) * FLASH_SECTOR_SIZE ≤ a →
          m1 a = m a) ∧
        (∀ a, ringNext fcb.first_sector fcb.last_sector h * FLASH_SECTOR_SIZE + 16 ≤ a →
          a < (ringNext fcb.first_sector fcb.last_sector h + 1) * FLASH_SECTOR_SIZE →
          m1 a = 0xFF)
      else
        fcb1.write_addr = h * FLASH_SECTOR_SIZE + fcb_find_sector_head_offset m h ∧
        m1 = m) := by
  have hrange := fht_head_range m fcb h (by rw [hht])
  have hnextlt : ringNext fcb.first_sector fcb.last_sector h < FLASH_SECTOR_COUNT := by
    unfold ringNext
    split <;> omega
  by_cases hfull : fcb_find_sector_head_offset m h = 0xFFFFFFFF
  · simp only [fcb_mount, hht, if_pos hfull,
      fcb_append_sector_eval _ _ _ hnextlt,
      fcb_write_sector_header_eval _ _ _ hnextlt]
    refine ⟨_, _, rfl, ?_⟩
    have hstat := freshHeader_status
      (flash_erase_sector m (ringNext fcb.first_sector fcb.last_sector h * FLASH_SECTOR_SIZE))
      (ringNext fcb.first_sector fcb.last_sector h) hnextlt
      ((hi + 1) % 2 ^ 32) (Nat.mod_lt _ (by norm_num))
    refine ⟨rfl, rfl, hstat.2, hstat.1, ?_, ?_⟩
    · intro a ha
      rw [writeBytes_apply, sectorHeaderBytes_length,
        flash_erase_sector_apply m _ a hnextlt]
      rw [if_neg (by rw [sectorSize_eq] at ha ⊢; omega)]
      rw [if_neg (by rw [sectorSize_eq] at ha ⊢; omega)]
    · intro a ha1 ha2
      rw [writeBytes_apply, sectorHeaderBytes_length,
        flash_erase_sector_apply m _ a hnextlt]
      rw [if_neg (by rw [sectorSize_eq] at ha1 ⊢; omega)]
      rw [if_pos (by rw [sectorSize_eq] at ha1 ha2 ⊢; omega)]
  · simp only [fcb_mount, hht, if_neg hfull]
    refine ⟨_, _, rfl, ?_⟩
    exact ⟨rfl, rfl⟩

/-- Witness for claim C6: concrete two-sector media (sequence ids 0xFFFFFFFE
and 1), where head-offset recovery finds free space at offset 16 of the head
sector, so mount places write_addr there and leaves the media untouched. -/
theorem claim_C6_witness :
    fcbAll.last_sector < FLASH_SECTOR_COUNT ∧
    fcb_find_head_tail mediaC7 fcbAll = (some 1, some 0, 1) ∧
    (∃ fcb1 m1, fcb_mount (some fcbAll) mediaC7 = (0, some fcb1, m1) ∧
      (if fcb_find_sector_head_offset mediaC7 1 = 0xFFFFFFFF then
        fcb1.write_addr =
          ringNext fcbAll.first_sector fcbAll.last_sector 1 * FLASH_SECTOR_SIZE + 16 ∧
        fcb1.current_sector_id = (1 + 1) % 2 ^ 32 ∧
        readLe32 m1 (ringNext fcbAll.first_sector fcbAll.last_sector 1 * FLASH_SECTOR_SIZE + 4) =
          (1 + 1) % 2 ^ 32 ∧
        fcb_get_sector_status m1 (ringNext fcbAll.first_sector fcbAll.last_sector 1) =
          STATE_ALLOCATED ∧
        (∀ a, a < ringNext fcbAll.first_sector fcbAll.last_sector 1 * FLASH_SECTOR_SIZE ∨
          (ringNext fcbAll.first_sector fcbAll.last_sector 1 + 1) * FLASH_SECTOR_SIZE ≤ a →
          m1 a = mediaC7 a) ∧
        (∀ a, ringNext fcbAll.first_sector fcbAll.last_sector 1 * FLASH_SECTOR_SIZE + 16 ≤ a →
          a < (ringNext fcbAll.first_sector fcbAll.last_sector 1 + 1) * FLASH_SECTOR_SIZE →
          m1 a = 0xFF)
      else
        fcb1.write_addr = 1 * FLASH_SECTOR_SIZE + fcb_find_sector_head_offset mediaC7 1 ∧
        m1 = mediaC7)) :=
  ⟨by decide, by decide, claim_C6 fcbAll mediaC7 1 (some 0) 1 (by decide) (by decide)⟩

/-- The 24-byte all-0xFF window test is the word test the C loop performs:
the word at the offset plus the five following words. -/
theorem bytes24_iff_words (m : Flash) (A : Nat) :
    (∀ j, j < 24 → readByte m (A + j) = 0xFF) ↔
      (readLe32 m A = 0xFFFFFFFF ∧ readLe32 m (A + 4) = 0xFFFFFFFF ∧
       readLe32 m (A + 8) = 0xFFFFFFFF ∧ readLe32 m (A + 12) = 0xFFFFFFFF ∧
       readLe32 m (A + 16) = 0xFFFFFFFF ∧ readLe32 m (A + 20) = 0xFFFFFFFF) := by
  constructor
  · intro hall
    have w0 : readLe32 m A = 0xFFFFFFFF := by
      rw [readLe32_ff_iff]
      refine ⟨?_, ?_, ?_, ?_⟩
      · have h := hall 0 (by omega); rwa [Nat.add_zero] at h
      · exact hall 1 (by omega)
      · exact hall 2 (by omega)
      · exact hall 3 (by omega)
    have w1 : readLe32 m (A + 4) = 0xFFFFFFFF := by
      rw [readLe32_ff_iff]
      refine ⟨?_, ?_, ?_, ?_⟩
      · exact hall 4 (by omega)
      · have h := hall 5 (by omega)
        rwa [show A + 5 = A + 4 + 1 by omega] at h
      · have h := hall 6 (by omega)
        rwa [show A + 6 = A + 4 + 2 by omega] at h
      · have h := hall 7 (by omega)
        rwa [show A + 7 = A + 4 + 3 by omega] at h
    have w2 : readLe32 m (A + 8) = 0xFFFFFFFF := by
      rw [readLe32_ff_iff]
      refine ⟨?_, ?_, ?_, ?_⟩
      · exact hall 8 (by omega)
      · have h := hall 9 (by omega)
        rwa [show A + 9 = A + 8 + 1 by omega] at h
      · have h := hall 10 (by omega)
        rwa [show A + 10 = A + 8 + 2 by omega] at h
      · have h := hall 11 (by omega)
        rwa [show A + 11 = A + 8 + 3 by omega] at h
    have w3 : readLe32 m (A + 12) = 0xFFFFFFFF := by
      rw [readLe32_ff_iff]
      refine ⟨?_, ?_, ?_, ?_⟩
      · exact hall 12 (by omega)
      · have h := hall 13 (by omega)
        rwa [show A + 13 = A + 12 + 1 by omega] at h
      · have h := hall 14 (by omega)
        rwa [show A + 14 = A + 12 + 2 by omega] at h
      · have h := hall 15 (by omega)
        rwa [show A + 15 = A + 12 + 3 by omega] at h
    have w4 : readLe32 m (A + 16) = 0xFFFFFFFF := by
      rw [readLe32_ff_iff]
      refine ⟨?_, ?_, ?_, ?_⟩
      · exact hall 16 (by omega)
      · have h := hall 17 (by omega)
        rwa [show A + 17 = A + 16 + 1 by omega] at h
      · have h := hall 18 (by omega)
        rwa [show A + 18 = A + 16 + 2 by omega] at h
      · have h := hall 19 (by omega)
        rwa [show A + 19 = A + 16 + 3 by omega] at h
    have w5 : readLe32 m (A + 20) = 0xFFFFFFFF := by
      rw [readLe32_ff_iff]
      refine ⟨?_, ?_, ?_, ?_⟩
      · exact hall 20 (by omega)
      · have h := hall 21 (by omega)
        rwa [show A + 21 = A + 20 + 1 by omega] at h
      · have h := hall 22 (by omega)
        rwa [show A + 22 = A + 20 + 2 by omega] at h
      · have h := hall 23 (by omega)
        rwa [show A + 23 = A + 20 + 3 by omega] at h
    exact ⟨w0, w1, w2, w3, w4, w5⟩
  · intro hw
    obtain ⟨h0, h1, h2, h3, h4, h5⟩ := hw
    rw [readLe32_ff_iff] at h0 h1 h2 h3 h4 h5
    obtain ⟨c0, c1, c2, c3⟩ := h0
    obtain ⟨c4, c5, c6, c7⟩ := h1
    obtain ⟨c8, c9, c10, c11⟩ := h2
    obtain ⟨c12, c13, c14, c15⟩ := h3
    obtain ⟨c16, c17, c18, c19⟩ := h4
    obtain ⟨c20, c21, c22, c23⟩ := h5
    intro j hj
    interval_cases j
    · rw [Nat.add_zero]; exact c0
    · exact c1
    · exact c2
    · exact c3
    · exact c4
    · rw [show A + 5 = A + 4 + 1 by omega]; exact c5
    · rw [show A + 6 = A + 4 + 2 by omega]; exact c6
    · rw [show A + 7 = A + 4 + 3 by omega]; exact c7
    · exact c8
    · rw [show A + 9 = A + 8 + 1 by omega]; exact c9
    · rw [show A + 10 = A + 8 + 2 by omega]; exact c10
    · rw [show A + 11 = A + 8 + 3 by omega]; exact c11
    · exact c12
    · rw [show A + 13 = A + 12 + 1 by omega]; exact c13
    · rw [show A + 14 = A + 12 + 2 by omega]; exact c14
    · rw [show A + 15 = A + 12 + 3 by omega]; exact c15
    · exact c16
    · rw [show A + 17 = A + 16 + 1 by omega]; exact c17
    · rw [show A + 18 = A + 16 + 2 by omega]; exact c18
    · rw [show A + 19 = A + 16 + 3 by omega]; exact c19
    · exact c20
    · rw [show A + 21 = A + 20 + 1 by omega]; exact c21
    · rw [show A + 22 = A + 20 + 2 by omega]; exact c22
    · rw [show A + 23 = A + 20 + 3 by omega]; exact c23

/-- The record parser fails on erased space: a 0xFFFFFFFF word at the
address makes the magic read 0xFFFF, which is not 0xA55A. -/
theorem parse_none_of_ff (m : Flash) (a : Nat) (h : readLe32 m a = 0xFFFFFFFF) :
    fcb_read_item_at m a = none := by
  have h16 : readLe16 m a = 0xFFFF := by
    unfold readLe32 readByte at h
    unfold readLe16 readByte
    omega
  simp only [fcb_read_item_at]
  rw [h16]
  rw [if_pos (by decide)]

/-- Head-offset walk transcribed from the claim text: starting slot test is
a 24-byte all-0xFF window; a parsed ItemKey advances by 12 + len; anything
else advances by exactly one byte; 0xFFFFFFFF when no free slot fits.
Stated over the same fuel as the embedded loop for comparison. -/
def claimHeadWalk (m : Flash) (base : Nat) : Nat → Nat → Nat
  | 0, _ => 0xFFFFFFFF
  | fuel + 1, offset =>
    if offset + 24 ≤ FLASH_SECTOR_SIZE then
      if ∀ j, j < 24 → readByte m (base + offset + j) = 0xFF then offset
      else
        match fcb_read_item_at m (base + offset) with
        | some key => claimHeadWalk m base fuel (offset + 12 + key.len)
        | none => claimHeadWalk m base fuel (offset + 1)
    else 0xFFFFFFFF

theorem fshoGo_eq_claimHeadWalk (m : Flash) (base : Nat) :
    ∀ fuel offset, fshoGo m base fuel offset = claimHeadWalk m base fuel offset := by
  intro fuel
  induction fuel with
  | zero => intro offset; rfl
  | succ f ih =>
    intro offset
    by_cases hb : offset + 2 * 12 ≤ FLASH_SECTOR_SIZE
    · by_cases hcond : ∀ j, j < 24 → readByte m (base + offset + j) = 0xFF
      · have hw := (bytes24_iff_words m (base + offset)).1 hcond
        have hmarg : marginOk m base offset = true := by
          unfold marginOk
          rw [decide_eq_true_iff]
          exact ⟨hw.2.1, hw.2.2.1, hw.2.2.2.1, hw.2.2.2.2.1, hw.2.2.2.2.2⟩
        simp only [fshoGo, claimHeadWalk]
        rw [if_pos hb, if_pos (show offset + 24 ≤ FLASH_SECTOR_SIZE by omega),
          if_pos hw.1, if_pos hmarg, if_pos hcond]
      · by_cases hw : readLe32 m (base + offset) = 0xFFFFFFFF
        · have hmarg : ¬ (marginOk m base offset = true) := by
            intro hm
            apply hcond
            apply (bytes24_iff_words m (base + offset)).2
            unfold marginOk at hm
            rw [decide_eq_true_iff] at hm
            exact ⟨hw, hm.1, hm.2.1, hm.2.2.1, hm.2.2.2.1, hm.2.2.2.2⟩
          have hparse : fcb_read_item_at m (base + offset) = none :=
            parse_none_of_ff m _ hw
          simp only [fshoGo, claimHeadWalk]
          rw [if_pos hb, if_pos (show offset + 24 ≤ FLASH_SECTOR_SIZE by omega),
            if_pos hw, if_neg hmarg, if_neg hcond, hparse]
          exact ih (offset + 1)
        · simp only [fshoGo, claimHeadWalk]
          rw [if_pos hb, if_pos (show offset + 24 ≤ FLASH_SECTOR_SIZE by omega),
            if_neg hw, if_neg hcond]
          cases hp : fcb_read_item_at m (base + offset) with
          | none => exact ih (offset + 1)
          | some key => exact ih (offset + 12 + key.len)
    · simp only [fshoGo, claimHeadWalk]
      rw [if_neg hb, if_neg (show ¬ offset + 24 ≤ FLASH_SECTOR_SIZE by omega)]

/-- C4: for every sector content, head offset recovery is exactly the walk
the claim describes: starting at offset 16, it returns the first offset
whose 24-byte window (the 0xFFFFFFFF word plus margin) is all 0xFF, advances
by 12 + key.len over an offset where a valid ItemKey parses, advances by
exactly one byte anywhere else, and returns 0xFFFFFFFF when no qualifying
free slot exists in the sector. -/
theorem claim_C4 (m : Flash) (sector_num : Nat) :
    fcb_find_sector_head_offset m sector_num =
      claimHeadWalk m (sector_num * FLASH_SECTOR_SIZE) FLASH_SECTOR_SIZE 16 :=
  fshoGo_eq_claimHeadWalk m (sector_num * FLASH_SECTOR_SIZE) FLASH_SECTOR_SIZE 16

/-- One valid record (magic 0xA55A, len 1, payload 0x42, status VALID),
serialized as fcb_append lays it down. -/
def recordC5 : List Nat :=
  le16 FCB_ENTRY_MAGIC ++ le16 1 ++ le32 (crc32_gen [0x42]) ++ le32 FCB_STATUS_VALID ++ [0x42]

/-- Media with a valid ALLOCATED header in sector 0 (sequence 1) and in
sector 1 (sequence 2); sector 0 keeps an erased word at offset 16 and a
valid record at offset 20; sector 1 is empty past its header. -/
def mediaC5 : Flash :=
  writeBytes
    (writeBytes (writeBytes flashAllFF 0 (allocHeaderBytes 1))
      FLASH_SECTOR_SIZE (allocHeaderBytes 2))
    20 recordC5

/-- Control block fcb_mount recovers from mediaC5. -/
def fcbC5res : Fcb :=
  { first_sector := 0, last_sector := 63, sector_size := FLASH_SECTOR_SIZE
  , current_sector_id := 2, write_addr := 65552, read_addr := 65552
  , delete_addr := 65552 }

/-- Counterexample to claim C5: mounting mediaC5 is a non-cold mount with
head sector 1 and tail sector 0; offset 20 of the tail sector is the first
address at or past offset 16 where a record parses (offsets 16-19 do not
parse), so the claim predicts read_addr = 20; yet the mounted read_addr is
write_addr = 65552, because the per-sector tail scan gives up at the erased
word found at offset 16 before ever reaching offset 20. -/
theorem claim_C5_counterexample :
    fcb_find_head_tail mediaC5 fcbAll = (some 1, some 0, 2) ∧
    (fcb_mount (some fcbAll) mediaC5).2.1 = some fcbC5res ∧
    (fcb_read_item_at mediaC5 (0 * FLASH_SECTOR_SIZE + 20)).isSome = true ∧
    fcb_read_item_at mediaC5 (0 * FLASH_SECTOR_SIZE + 16) = none ∧
    fcb_read_item_at mediaC5 (0 * FLASH_SECTOR_SIZE + 17) = none ∧
    fcb_read_item_at mediaC5 (0 * FLASH_SECTOR_SIZE + 18) = none ∧
    fcb_read_item_at mediaC5 (0 * FLASH_SECTOR_SIZE + 19) = none ∧
    fcbC5res.read_addr ≠ 0 * FLASH_SECTOR_SIZE + 20 := by
  decide

/-- One-step unfolding of the tail-scan loop. -/
theorem ftoGo_succ (m : Flash) (base fuel offset : Nat) :
    ftoGo m base (fuel + 1) offset =
      if offset + 12 ≤ FLASH_SECTOR_SIZE then
        match fcb_read_item_at m (base + offset) with
        | some _ => offset
        | none =>
          if readLe32 m (base + offset) = 0xFFFFFFFF then 0xFFFFFFFF
          else ftoGo m base fuel (offset + 1)
      else 0xFFFFFFFF := rfl

/-- Per-sector tail scan transcribed from the amended claim text: starting
at offset 16, return the first offset at which a record parses; give up
(0xFFFFFFFF) at the first offset whose 32-bit word reads erased, treating
the rest of the sector as empty; give up at the sector end. Stated over the
same fuel as the embedded loop for comparison. -/
def claimTailScan (m : Flash) (base : Nat) : Nat → Nat → Nat
  | 0, _ => 0xFFFFFFFF
  | fuel + 1, offset =>
    if offset + 12 ≤ FLASH_SECTOR_SIZE then
      if (fcb_read_item_at m (base + offset)).isSome then offset
      else if readLe32 m (base + offset) = 0xFFFFFFFF then 0xFFFFFFFF
      else claimTailScan m base fuel (offset + 1)
    else 0xFFFFFFFF

/-- One-step unfolding of the transcribed tail scan. -/
theorem claimTailScan_succ (m : Flash) (base fuel offset : Nat) :
    claimTailScan m base (fuel + 1) offset =
      if offset + 12 ≤ FLASH_SECTOR_SIZE then
        if (fcb_read_item_at m (base + offset)).isSome then offset
        else if readLe32 m (base + offset) = 0xFFFFFFFF then 0xFFFFFFFF
        else claimTailScan m base fuel (offset + 1)
      else 0xFFFFFFFF := rfl

theorem ftoGo_eq_claimTailScan (m : Flash) (base : Nat) :
    ∀ fuel offset, ftoGo m base fuel offset = claimTailScan m base fuel offset := by
  intro fuel
  induction fuel with
  | zero => intro offset; rfl
  | succ f ih =>
    intro offset
    rw [ftoGo_succ, claimTailScan_succ]
    by_cases hb : offset + 12 ≤ FLASH_SECTOR_SIZE
    · rw [if_pos hb, if_pos hb]
      cases hp : fcb_read_item_at m (base + offset) with
      | some key => rfl
      | none =>
        show (if readLe32 m (base + offset) = 0xFFFFFFFF then 0xFFFFFFFF
            else ftoGo m base f (offset + 1)) =
          (if readLe32 m (base + offset) = 0xFFFFFFFF then 0xFFFFFFFF
            else claimTailScan m base f (offset + 1))
        rw [ih (offset + 1)]
    · rw [if_neg hb, if_neg hb]

/-- The embedded per-sector tail scan equals the transcribed one. -/
theorem tailoff_eq_claimTailScan (m : Flash) (s : Nat) :
    fcb_find_sector_tail_offset m s =
      claimTailScan m (s * FLASH_SECTOR_SIZE) FLASH_SECTOR_SIZE 16 :=
  ftoGo_eq_claimTailScan m (s * FLASH_SECTOR_SIZE) FLASH_SECTOR_SIZE 16

/-- Ring-order tail search transcribed from the amended claim text: visit
sectors from the tail sector forward in ring order; the first sector whose
scan yields an offset gives the absolute tail address; stop after the head
sector (inclusive) or after visiting every owned sector, falling back to the
supplied address (write_addr). -/
def claimTailRing (m : Flash) (first last headS : Nat) : Nat → Nat → Nat → Nat
  | _, 0, fallback => fallback
  | i, count + 1, fallback =>
    let off := claimTailScan m (i * FLASH_SECTOR_SIZE) FLASH_SECTOR_SIZE 16
    if off ≠ 0xFFFFFFFF then i * FLASH_SECTOR_SIZE + off
    else if i = headS then fallback
    else claimTailRing m first last headS (ringNext first last i) count fallback

theorem rgtGo_eq_claimTailRing (m : Flash) (first last headS : Nat) :
    ∀ count i fallback, rgtGo m first last headS i count fallback =
      claimTailRing m first last headS i count fallback := by
  intro count
  induction count with
  | zero => intro i fb; rfl
  | succ c ih =>
    intro i fb
    simp only [rgtGo, claimTailRing]
    rw [tailoff_eq_claimTailScan]
    by_cases h1 : claimTailScan m (i * FLASH_SECTOR_SIZE) FLASH_SECTOR_SIZE 16 ≠ 0xFFFFFFFF
    · rw [if_pos h1, if_pos h1]
    · rw [if_neg h1, if_neg h1]
      by_cases h2 : i = headS
      · rw [if_pos h2, if_pos h2]
      · rw [if_neg h2, if_neg h2]
        exact ih (ringNext first last i) fb

/-- Global tail recovery transcribed from the amended claim text: elect the
tail sector, walk the ring from it up to the head sector inclusive with the
transcribed per-sector scan, and fall back to write_addr if nothing parses. -/
def claimTailRecover (m : Flash) (fcb : Fcb) (write_addr : Nat) : Nat :=
  match (fcb_find_head_tail m fcb).2.1 with
  | none => write_addr
  | some tailS =>
    claimTailRing m fcb.first_sector fcb.last_sector (write_addr / FLASH_SECTOR_SIZE)
      tailS (fcb.last_sector - fcb.first_sector + 1) write_addr

theorem recover_eq_claimTailRecover (m : Flash) (fcb : Fcb) (wa : Nat) :
    fcb_recover_global_tail m fcb wa = claimTailRecover m fcb wa := by
  simp only [fcb_recover_global_tail, claimTailRecover]
  cases (fcb_find_head_tail m fcb).2.1 with
  | none => rfl
  | some tailS =>
    exact rgtGo_eq_claimTailRing m fcb.first_sector fcb.last_sector
      (wa / FLASH_SECTOR_SIZE) (fcb.last_sector - fcb.first_sector + 1) tailS wa

/-- claimTailRecover depends on its control block only through the owned
sector range. -/
theorem claimTailRecover_sectors (m : Flash) (a b : Fcb) (wa : Nat)
    (h1 : a.first_sector = b.first_sector) (h2 : a.last_sector = b.last_sector) :
    claimTailRecover m a wa = claimTailRecover m b wa := by
  unfold claimTailRecover fcb_find_head_tail
  rw [h1, h2]

theorem append_sector_first (f : Fcb) (s : Nat) (mm : Flash) :
    (fcb_append_sector f s mm).1.first_sector = f.first_sector := by
  unfold fcb_append_sector
  split <;> rfl

theorem append_sector_last (f : Fcb) (s : Nat) (mm : Flash) :
    (fcb_append_sector f s mm).1.last_sector = f.last_sector := by
  unfold fcb_append_sector
  split <;> rfl

/-- C5 amended: (1) for every media and sector, the per-sector tail scan is
exactly the transcribed walk — it returns the first offset at or past 16
where a record parses but gives up at the first offset whose 32-bit word
reads erased (even when a record parses later in the sector) and at the
sector end; (2) for every media, control block and fallback address, global
tail recovery is exactly the transcribed ring search from the tail sector
forward up to the head sector inclusive, falling back to the supplied
address; (3) every non-cold-start mount sets read_addr to that transcribed
recovery applied to the mounted media with write_addr as the fallback, and
delete_addr = read_addr. -/
theorem claim_C5_amended :
    (∀ m s, fcb_find_sector_tail_offset m s =
      claimTailScan m (s * FLASH_SECTOR_SIZE) FLASH_SECTOR_SIZE 16) ∧
    (∀ m fcb wa, fcb_recover_global_tail m fcb wa = claimTailRecover m fcb wa) ∧
    (∀ fcb m h tl hi, fcb_find_head_tail m fcb = (some h, tl, hi) →
      ∃ fcb1 m1, fcb_mount (some fcb) m = (0, some fcb1, m1) ∧
        fcb1.delete_addr = fcb1.read_addr ∧
        fcb1.read_addr = claimTailRecover m1 fcb fcb1.write_addr) := by
  refine ⟨tailoff_eq_claimTailScan, recover_eq_claimTailRecover, ?_⟩
  intro fcb m h tl hi hht
  by_cases hfull : fcb_find_sector_head_offset m h = 0xFFFFFFFF
  · simp only [fcb_mount, hht, if_pos hfull]
    refine ⟨_, _, rfl, rfl, ?_⟩
    rw [recover_eq_claimTailRecover]
    apply claimTailRecover_sectors
    · show (fcb_append_sector { fcb with current_sector_id := hi }
        (ringNext fcb.first_sector fcb.last_sector h)
        (flash_erase_sector m
          (ringNext fcb.first_sector fcb.last_sector h * FLASH_SECTOR_SIZE))).1.first_sector =
        fcb.first_sector
      rw [append_sector_first]
    · show (fcb_append_sector { fcb with current_sector_id := hi }
        (ringNext fcb.first_sector fcb.last_sector h)
        (flash_erase_sector m
          (ringNext fcb.first_sector fcb.last_sector h * FLASH_SECTOR_SIZE))).1.last_sector =
        fcb.last_sector
      rw [append_sector_last]
  · simp only [fcb_mount, hht, if_neg hfull]
    refine ⟨_, _, rfl, rfl, ?_⟩
    rw [recover_eq_claimTailRecover]
    apply claimTailRecover_sectors
    · rfl
    · rfl

/-- Witness for C5 amended at concrete inputs: mediaC5 with the whole-device
control block is a non-cold mount (head sector 1, tail sector 0), and the
per-sector scan instance at sector 0 of mediaC5. -/
theorem claim_C5_witness :
    fcb_find_head_tail mediaC5 fcbAll = (some 1, some 0, 2) ∧
    (∃ fcb1 m1, fcb_mount (some fcbAll) mediaC5 = (0, some fcb1, m1) ∧
      fcb1.delete_addr = fcb1.read_addr ∧
      fcb1.read_addr = claimTailRecover m1 fcbAll fcb1.write_addr) ∧
    fcb_find_sector_tail_offset mediaC5 0 =
      claimTailScan mediaC5 (0 * FLASH_SECTOR_SIZE) FLASH_SECTOR_SIZE 16 :=
  ⟨by decide, claim_C5_amended.2.2 fcbAll mediaC5 1 (some 0) 2 (by decide),
    claim_C5_amended.1 mediaC5 0⟩
